import Mathlib

/-!
Verification development for the osquery result-tracking engine
(src/osquery/core/query.cpp, query.h).

The persistent key-value store is modelled as an association list from string
keys to stored values.  A stored value is either a raw string (query text,
epoch and counter numerals) or a serialized result set; the JSON row
serializer is lossless for the comparisons performed here, so a serialized
result set is represented by the row list itself (constructor `vrows`).
Fallible operations return `Option`; `none` models a failed `Status` or an
uncaught exception (`std::stoull` on non-numeric input).
-/

namespace Osq

/-- A row: an ordered mapping from column name to column value.  The engine
compares rows by full column-map equality; typed and string-valued rows agree
on every comparison made here (spec section 4.1), so one representation
suffices. -/
abbrev Row := List (String × String)

/-- Differential results between two query result sets
(osquery/core/sql/diff_results.h). -/
structure DiffResults where
  added : List Row := []
  removed : List Row := []
deriving DecidableEq, Repr, Inhabited

/-- Modelled from the spec: the differencing function `diff(previous, current)`
(declared in diff_results.h; its implementation is outside src/).  Per spec
section 4.2, for every row value r, `removed` contains r repeated
max(0, countPrev r - countCur r) times and `added` contains r repeated
max(0, countCur r - countPrev r) times; realized as multiset difference. -/
def diff (previous current : List Row) : DiffResults :=
  { added := current.diff previous, removed := previous.diff current }

/-- A value in the persistent store: either a raw string or a serialized
result set (see the module docstring). -/
inductive DBVal where
  | vstr (s : String)
  | vrows (r : List Row)
deriving DecidableEq, Repr, Inhabited

/-- The persistent key-value store (the kQueries domain), newest binding
first. -/
abbrev DB := List (String × DBVal)

/-- Database read; `none` is the not-found status. -/
def dbGet (db : DB) (key : String) : Option DBVal :=
  (db.find? (fun p => p.1 == key)).map (fun p => p.2)

/-- Store state together with the ordered trace of writes performed, used to
express the frame conditions (which keys a commit writes, and in which
order). -/
structure DBState where
  db : DB := []
  log : List (String × DBVal) := []
deriving DecidableEq, Repr, Inhabited

/-- setDatabaseValue: record the new binding and append it to the write
trace.  Writes always succeed in this model. -/
def setDatabaseValue (s : DBState) (key : String) (v : DBVal) : DBState :=
  { db := (key, v) :: s.db, log := s.log ++ [(key, v)] }

/-- Fold the digit characters of a numeral into a natural number. -/
def charsToNat : List Char → Nat → Nat
  | [], acc => acc
  | c :: cs, acc => charsToNat cs (acc * 10 + (c.toNat - 48))

/-- Model of C++ std::stoull at base 10: skip leading whitespace, accept an
optional sign, then read digits.  `none` models the thrown exception
(std::invalid_argument when no digits are present, std::out_of_range when the
magnitude exceeds the uint64 range); a leading minus negates modulo 2^64 as
strtoull does. -/
def stoull (s : String) : Option Nat :=
  let cs := s.data.dropWhile Char.isWhitespace
  let signAndRest : Bool × List Char :=
    match cs with
    | '-' :: rest => (true, rest)
    | '+' :: rest => (false, rest)
    | _ => (false, cs)
  let ds := signAndRest.2.takeWhile Char.isDigit
  if ds.isEmpty then none
  else
    let v := charsToNat ds 0
    if 2 ^ 64 ≤ v then none
    else if signAndRest.1 then some ((2 ^ 64 - v) % 2 ^ 64) else some v

/-- QueryLogItem (query.h): the output envelope for one execution.  The C++
field previous_remaining_counter has no initializer; fresh items in the
scenarios below always set it before use, and the model gives it default 0. -/
structure QueryLogItem where
  isSnapshot : Bool := false
  results : DiffResults := {}
  previous_remaining : DiffResults := {}
  snapshot_results : List Row := []
  name : String := ""
  identifier : String := ""
  time : Nat := 0
  epoch : Nat := 0
  previous_epoch : Nat := 0
  counter : Nat := 0
  previous_remaining_counter : Nat := 0
  calendar_time : String := ""
  decorations : List (String × String) := []
deriving DecidableEq, Repr, Inhabited

/-- The Query handle: a query name bound to the currently configured query
text (query.h). -/
structure Query where
  query_ : String
  name_ : String
deriving DecidableEq, Repr, Inhabited

/-- Query::getPreviousEpoch: read key name+"epoch"; absent means epoch 0; a
present value goes through stoull (a stored result set at this key would
stringify to a JSON array, which stoull rejects). -/
def Query.getPreviousEpoch (q : Query) (db : DB) : Option Nat :=
  match dbGet db (q.name_ ++ "epoch") with
  | none => some 0
  | some (.vstr raw) => stoull raw
  | some (.vrows _) => none

/-- Query::getQueryCounter: 0 for all_records; 1 for a new query; otherwise
the persisted counter incremented (uint64 arithmetic), with an absent key
yielding 0 and an unparseable value raising the stoull exception. -/
def Query.getQueryCounter (q : Query) (db : DB) (all_records new_query : Bool) : Option Nat :=
  if all_records then some 0
  else if new_query then some 1
  else
    match dbGet db (q.name_ ++ "counter") with
    | none => some 0
    | some (.vstr raw) => (stoull raw).map (fun c => (c + 1) % 2 ^ 64)
    | some (.vrows _) => none

/-- Query::getPreviousQueryResults: read the serialized result set stored
under the bare name; a missing key is a failed status and a non-result-set
value is a JSON deserialization failure, both propagated. -/
def Query.getPreviousQueryResults (q : Query) (db : DB) : Option (List Row) :=
  match dbGet db q.name_ with
  | none => none
  | some (.vstr _) => none
  | some (.vrows r) => some r

/-- Query::isQueryNameInDatabase: the stored query names are the keys of the
kQueries domain, so this asks whether the bare name key is bound. -/
def Query.isQueryNameInDatabase (q : Query) (db : DB) : Bool :=
  (dbGet db q.name_).isSome

/-- Query::isNewQuery: compare the stored query text (empty when the read
fails) with the configured text. -/
def Query.isNewQuery (q : Query) (db : DB) : Bool :=
  ((dbGet db ("query." ++ q.name_)).getD (.vstr (""))) != DBVal.vstr q.query_

/-- saveQuery: persist the query text under "query."+name (the write status
is ignored at the call sites, matching the source). -/
def saveQuery (s : DBState) (name query : String) : DBState :=
  setDatabaseValue s ("query." ++ name) (.vstr query)

/-- Query::getQueryStatus: returns (previous_epoch, new_epoch, new_query) and
the possibly-updated store; `none` models the uncaught stoull exception from
getPreviousEpoch.  Both flag outputs start false at every call site. -/
def Query.getQueryStatus (q : Query) (s : DBState) (epoch : Nat) :
    Option (Nat × Bool × Bool × DBState) :=
  match q.getPreviousEpoch s.db with
  | none => none
  | some previous_epoch =>
    if ¬ q.isQueryNameInDatabase s.db then
      some (previous_epoch, true, true, saveQuery s q.name_ q.query_)
    else if previous_epoch ≠ epoch then
      some (previous_epoch, true, false, s)
    else if q.isNewQuery s.db then
      some (previous_epoch, false, true, saveQuery s q.name_ q.query_)
    else
      some (previous_epoch, false, false, s)

/-- Query::incrementCounter: compute the counter and persist it under
name+"counter" as a decimal numeral. -/
def Query.incrementCounter (q : Query) (s : DBState) (all_records new_query : Bool) :
    Option (Nat × DBState) :=
  match q.getQueryCounter s.db all_records new_query with
  | none => none
  | some counter =>
    some (counter, setDatabaseValue s (q.name_ ++ "counter") (.vstr (toString counter)))

/-- Query::addNewResults (the QueryLogItem overload, query.cpp lines
158-233).  The C++ target pointer always denotes a value equal to the current
rows, so the persisted serialization is written as the current rows
directly. -/
def Query.addNewResults (q : Query) (current_qd : List Row) (item0 : QueryLogItem)
    (calculate_diff : Bool) (s0 : DBState) : Option (QueryLogItem × DBState) :=
  match q.getQueryStatus s0 item0.epoch with
  | none => none
  | some (previous_epoch, new_epoch, new_query, s1) =>
    let item1 := { item0 with previous_epoch := previous_epoch }
    let step2 : Option (QueryLogItem × Bool) :=
      if !new_query && calculate_diff then
        match q.getPreviousQueryResults s1.db with
        | none => none
        | some previous_qd =>
          let item2 :=
            if new_epoch then
              { item1 with previous_remaining := diff previous_qd current_qd,
                           results := { item1.results with added := current_qd } }
            else
              { item1 with results := diff previous_qd current_qd }
          let update_db : Bool :=
            !(!new_epoch && item2.results.added.isEmpty && item2.results.removed.isEmpty)
          some (item2, update_db)
      else
        some ({ item1 with results := { item1.results with added := current_qd } }, true)
    match step2 with
    | none => none
    | some (item2, update_db) =>
      let s2 :=
        if update_db then
          setDatabaseValue (setDatabaseValue s1 q.name_ (.vrows current_qd))
            (q.name_ ++ "epoch") (.vstr (toString item2.epoch))
        else s1
      let step3 : Option (QueryLogItem × DBState) :=
        if new_epoch &&
            !(item2.previous_remaining.added.isEmpty &&
              item2.previous_remaining.removed.isEmpty) then
          match q.incrementCounter s2 false false with
          | none => none
          | some (c, s3) => some ({ item2 with previous_remaining_counter := c }, s3)
        else some (item2, s2)
      match step3 with
      | none => none
      | some (item3, s3) =>
        if update_db || new_epoch || new_query then
          match q.incrementCounter s3 new_epoch new_query with
          | none => none
          | some (c, s4) => some ({ item3 with counter := c }, s4)
        else some (item3, s3)

/-- Process-wide rendering switches read at render time (FLAGS_logger_numerics
and FLAGS_decorations_top_level). -/
structure Flags where
  logger_numerics : Bool := false
  decorations_top_level : Bool := false
deriving DecidableEq, Repr, Inhabited

/-- The body of a legacy-form document: either a diffResults object or a
snapshot array together with the action:"snapshot" marker. -/
inductive LegacyPayload where
  | diffR (dr : DiffResults)
  | snapshot (rows : List Row)
deriving DecidableEq, Repr, Inhabited

/-- The differential content a legacy document carries: the diff of a
diffResults document, empty for a snapshot-form document. -/
def LegacyPayload.diffContent : LegacyPayload → DiffResults
  | .diffR dr => dr
  | .snapshot _ => {}

/-- A legacy-form document with the metadata attached by
addLegacyFieldsAndDecorations. -/
structure LegacyDoc where
  payload : LegacyPayload
  name : String
  identifier : String
  calendar_time : String
  unixTime : Nat
  epoch : Nat
  previous_epoch : Nat
  counter : Nat
  numerics : Bool
  decorations : List (String × String)
  decorations_top_level : Bool
deriving DecidableEq, Repr, Inhabited

/-- addLegacyFieldsAndDecorations: the previous-remaining rendering stamps the
previous epoch into both epoch fields and uses the previous-remaining counter;
the current rendering uses the current epoch and counter. -/
def addLegacyFieldsAndDecorations (is_previous_remaining : Bool) (item : QueryLogItem)
    (fl : Flags) (payload : LegacyPayload) : LegacyDoc :=
  { payload := payload
    name := item.name
    identifier := item.identifier
    calendar_time := item.calendar_time
    unixTime := item.time
    epoch := if is_previous_remaining then item.previous_epoch else item.epoch
    previous_epoch := item.previous_epoch
    counter := if is_previous_remaining then item.previous_remaining_counter else item.counter
    numerics := fl.logger_numerics
    decorations := item.decorations
    decorations_top_level := fl.decorations_top_level }

/-- serializeQueryLogItem (one rendering pass): a diffResults document when the
selected differential is non-empty, otherwise a snapshot document built from
snapshot_results.  The underlying row serializers (outside src/) are modelled
from the spec as total, so a pass always yields a document. -/
def serializeQueryLogItem (is_previous_remaining : Bool) (item : QueryLogItem)
    (fl : Flags) : LegacyDoc :=
  let dr := if is_previous_remaining then item.previous_remaining else item.results
  let payload : LegacyPayload :=
    if dr.added.length > 0 || dr.removed.length > 0 then .diffR dr
    else .snapshot item.snapshot_results
  addLegacyFieldsAndDecorations is_previous_remaining item fl payload

/-- serializeQueryLogItemJSON: render the previous-remaining pass and then the
current pass; each pass produces a non-empty JSON string, so both renderings
land in the output list, previous-remaining first. -/
def serializeQueryLogItemJSON (item : QueryLogItem) (fl : Flags) :
    Option (List LegacyDoc) :=
  some [serializeQueryLogItem true item fl, serializeQueryLogItem false item fl]

/-- One exploded per-row event document, with row columns nested under the
columns key and the same metadata as the legacy form. -/
structure EventDoc where
  action : String
  columns : Row
  name : String
  identifier : String
  calendar_time : String
  unixTime : Nat
  epoch : Nat
  previous_epoch : Nat
  counter : Nat
  numerics : Bool
  decorations : List (String × String)
  decorations_top_level : Bool
deriving DecidableEq, Repr, Inhabited

/-- serializeEvent: one row exploded into an event document carrying the
legacy metadata fields and the action tag. -/
def serializeEvent (is_previous_remaining : Bool) (item : QueryLogItem) (fl : Flags)
    (action : String) (row : Row) : EventDoc :=
  { action := action
    columns := row
    name := item.name
    identifier := item.identifier
    calendar_time := item.calendar_time
    unixTime := item.time
    epoch := if is_previous_remaining then item.previous_epoch else item.epoch
    previous_epoch := item.previous_epoch
    counter := if is_previous_remaining then item.previous_remaining_counter else item.counter
    numerics := fl.logger_numerics
    decorations := item.decorations
    decorations_top_level := fl.decorations_top_level }

/-- One pass of the event-form serialization: explode the selected
differential (removed rows first, then added, following the member order the
diff serializer emits), else the snapshot, else fail with the
no-content status.  Underscore-prefixed as in the source. -/
def _serializeQueryLogItemAsEvents (is_previous_remaining : Bool) (item : QueryLogItem)
    (fl : Flags) : Option (List EventDoc) :=
  let dr := if is_previous_remaining then item.previous_remaining else item.results
  if !dr.added.isEmpty || !dr.removed.isEmpty then
    some (dr.removed.map (serializeEvent is_previous_remaining item fl ("removed")) ++
          dr.added.map (serializeEvent is_previous_remaining item fl ("added")))
  else if !item.snapshot_results.isEmpty then
    some (item.snapshot_results.map
      (serializeEvent is_previous_remaining item fl ("snapshot")))
  else none

/-- serializeQueryLogItemAsEvents: previous-remaining pass first, then the
current pass; a failure of either pass fails the whole serialization. -/
def serializeQueryLogItemAsEvents (item : QueryLogItem) (fl : Flags) :
    Option (List EventDoc) :=
  match _serializeQueryLogItemAsEvents true item fl with
  | none => none
  | some evs1 =>
    match _serializeQueryLogItemAsEvents false item fl with
    | none => none
    | some evs2 => some (evs1 ++ evs2)

/-! Concrete scenario from spec section 8: query name q1, first commit of rows
[{a:"1"}] at epoch 1, and follow-up commits. -/

/-- The scheduled query of the concrete scenario. -/
def qA : Query := { query_ := "select 1", name_ := "q1" }

/-- The row {a:"1"}. -/
def rowA1 : Row := [("a", "1")]

/-- The row {a:"2"}. -/
def rowA2 : Row := [("a", "2")]

/-- First-ever commit of q1: rows [{a:"1"}] at epoch 1 with differencing
requested, starting from an empty store. -/
def commitA1 : Option (QueryLogItem × DBState) :=
  Query.addNewResults qA [rowA1] { epoch := 1 } true {}

/-- Second commit of q1: rows [{a:"1"},{a:"2"}] at the same epoch 1 with
calculateDiff=true, continuing from the first commit's store. -/
def commitA2 : Option (QueryLogItem × DBState) :=
  commitA1.bind (fun r => Query.addNewResults qA [rowA1, rowA2] { epoch := 1 } true r.2)

/-- An epoch-rollover commit of q1: the same rows [{a:"1"}] re-submitted at
epoch 2 with calculateDiff=true, continuing from the first commit's store. -/
def commitB : Option (QueryLogItem × DBState) :=
  commitA1.bind (fun r => Query.addNewResults qA [rowA1] { epoch := 2 } true r.2)

/-- The (counter, carried differential) pairs of the legacy documents produced
for the epoch-rollover commit. -/
def counterDiffB : List (Nat × DiffResults) :=
  ((commitB.bind (fun r => serializeQueryLogItemJSON r.1 {})).map
    (List.map (fun d => (d.counter, d.payload.diffContent)))).getD []

/-- The store state after the first commit of the concrete scenario. -/
def stateB1 : DBState := (commitA1.map (fun r => r.2)).getD {}

/-- The item returned by the epoch-rollover commit of the concrete scenario. -/
def itemB : QueryLogItem := (commitB.map (fun r => r.1)).getD {}

/-- The store state after the epoch-rollover commit of the concrete
scenario. -/
def stateB2 : DBState := (commitB.map (fun r => r.2)).getD {}

/-- The current-pass legacy document of the epoch-rollover commit. -/
def docB : LegacyDoc := serializeQueryLogItem false itemB {}

/-- C1 counterexample: with all_records=false and new_query=false and no
persisted counter, getQueryCounter returns 0, not the claimed 1 (the absent
case does not go through the "1 + persisted" rule). -/
theorem C1_counterexample :
    ¬ (Query.getQueryCounter { query_ := "select 1", name_ := "q1" } [] false false
        = some 1) := by
  decide

/-- C1 (amended): getQueryCounter returns 0 when all_records; else 1 when
new_query; otherwise 0 when the persisted counter key is absent, the persisted
counter incremented modulo 2^64 when it parses, and the stoull exception when
it does not parse. -/
theorem C1_amended (q : Query) (db : DB) (a n : Bool) :
    (a = true → q.getQueryCounter db a n = some 0) ∧
    (a = false → n = true → q.getQueryCounter db a n = some 1) ∧
    (a = false → n = false → dbGet db (q.name_ ++ "counter") = none →
      q.getQueryCounter db a n = some 0) ∧
    (∀ raw c, a = false → n = false →
      dbGet db (q.name_ ++ "counter") = some (.vstr raw) → stoull raw = some c →
      q.getQueryCounter db a n = some ((c + 1) % 2 ^ 64)) ∧
    (∀ raw, a = false → n = false →
      dbGet db (q.name_ ++ "counter") = some (.vstr raw) → stoull raw = none →
      q.getQueryCounter db a n = none) := by
  refine ⟨?_, ?_, ?_, ?_, ?_⟩
  · intro ha; subst ha; simp [Query.getQueryCounter]
  · intro ha hn; subst ha; subst hn; simp [Query.getQueryCounter]
  · intro ha hn h; subst ha; subst hn; simp [Query.getQueryCounter, h]
  · intro raw c ha hn h hs; subst ha; subst hn; simp [Query.getQueryCounter, h, hs]
  · intro raw ha hn h hs; subst ha; subst hn; simp [Query.getQueryCounter, h, hs]

/-- Witness for C1_amended at a concrete input: empty store, both flags
false. -/
theorem C1_amended_witness :
    Query.getQueryCounter { query_ := "select 1", name_ := "q1" } [] false false
      = some 0 :=
  (C1_amended { query_ := "select 1", name_ := "q1" } [] false false).2.2.1 rfl rfl rfl

/-- C2 counterexample: in the concrete scenario the first commit's counter is
not 1 and the second commit's counter is not 2 (they are 0 and 1: the first
commit passes new_epoch as all_records, storing counter 0). -/
theorem C2_counterexample :
    ¬ (commitA1.map (fun r => r.1.counter) = some 1 ∧
       commitA2.map (fun r => r.1.counter) = some 2) := by
  decide

/-- C2 (amended): the first-ever commit of q1 at epoch 1 with rows [{a:"1"}]
yields newQuery=true and newEpoch=true, persists the result set [{a:"1"}],
produces counter 0, and its legacy serialization consists of an empty snapshot
document (the unskipped previous-remaining pass) followed by a diffResults
document whose added set is the one row; the second commit at epoch 1 with
rows [{a:"1"},{a:"2"}] and calculateDiff=true yields added=[{a:"2"}],
removed=[], and counter 1. -/
theorem C2_amended :
    (Query.getQueryStatus qA {} 1).map (fun r => (r.2.1, r.2.2.1)) = some (true, true) ∧
    commitA1.map (fun r => (r.1.counter, dbGet r.2.db qA.name_)) =
      some (0, some (.vrows [rowA1])) ∧
    commitA1.map (fun r => (serializeQueryLogItemJSON r.1 {}).map
        (List.map LegacyDoc.payload)) =
      some (some [.snapshot [], .diffR { added := [rowA1] }]) ∧
    commitA2.map (fun r => (r.1.results.added, r.1.results.removed, r.1.counter)) =
      some ([rowA2], [], 1) := by
  decide

/-- C5 counterexample: the epoch-rollover commit of the concrete scenario
emits a legacy document with counter 0 whose carried differential is the full
current row set as added, which is non-empty, so a counter-0 document does not
always carry an empty diff. -/
theorem C5_counterexample :
    ¬ (∀ p ∈ counterDiffB, p.1 = 0 → p.2 = ({} : DiffResults)) := by
  decide

/-- C6 evaluation at the failing input: for an item with a non-empty primary
differential and empty previous_remaining and snapshot content, the legacy
serialization produces two documents rather than skipping the empty
previous-remaining pass, and the event-form serialization fails outright with
the no-content status. -/
theorem C6_code_divergence :
    (serializeQueryLogItemJSON { results := { added := [rowA1] }, epoch := 1 } {}).map
        List.length = some 2 ∧
    serializeQueryLogItemAsEvents { results := { added := [rowA1] }, epoch := 1 } {}
      = none := by
  decide

/-! Supporting lemmas about the store and the per-name keys. -/

/-- Reading a key right after writing it yields the written value. -/
theorem dbGet_set_same (s : DBState) (k : String) (v : DBVal) :
    dbGet (setDatabaseValue s k v).db k = some v := by
  simp [dbGet, setDatabaseValue, List.find?]

/-- Writing one key leaves reads of any other key unchanged. -/
theorem dbGet_set_other (s : DBState) (k : String) (v : DBVal) (k' : String)
    (h : k' ≠ k) :
    dbGet (setDatabaseValue s k v).db k' = dbGet s.db k' := by
  simp only [dbGet, setDatabaseValue, List.find?]
  rw [show (k == k') = false from beq_eq_false_iff_ne.mpr (Ne.symm h)]

/-- Strings of different lengths are different. -/
theorem ne_of_length_ne {s t : String} (h : s.length ≠ t.length) : s ≠ t :=
  fun he => h (congrArg String.length he)

/-- The result-set key differs from the epoch key of the same name. -/
theorem name_ne_epochKey (n : String) : n ≠ n ++ "epoch" :=
  ne_of_length_ne (by
    simp only [String.length_append, show String.length ("epoch") = 5 from by decide]
    omega)

/-- The result-set key differs from the counter key of the same name. -/
theorem name_ne_counterKey (n : String) : n ≠ n ++ "counter" :=
  ne_of_length_ne (by
    simp only [String.length_append, show String.length ("counter") = 7 from by decide]
    omega)

/-- The epoch key differs from the counter key of the same name. -/
theorem epochKey_ne_counterKey (n : String) : n ++ "epoch" ≠ n ++ "counter" :=
  ne_of_length_ne (by
    simp only [String.length_append, show String.length ("epoch") = 5 from by decide,
      show String.length ("counter") = 7 from by decide]
    omega)

/-- getQueryCounter only looks at the counter key. -/
theorem getQueryCounter_congr (q : Query) {db db' : DB} (a n : Bool)
    (h : dbGet db' (q.name_ ++ "counter") = dbGet db (q.name_ ++ "counter")) :
    q.getQueryCounter db' a n = q.getQueryCounter db a n := by
  simp only [Query.getQueryCounter, h]

/-- getQueryStatus on a known name with matching epoch and matching query
text: both flags stay false and nothing is written. -/
theorem getQueryStatus_same_epoch (q : Query) (s : DBState) (epoch : Nat)
    (v : DBVal) (raw : String)
    (hname : dbGet s.db q.name_ = some v)
    (hquery : dbGet s.db ("query." ++ q.name_) = some (.vstr q.query_))
    (hepoch : dbGet s.db (q.name_ ++ "epoch") = some (.vstr raw))
    (hraw : stoull raw = some epoch) :
    q.getQueryStatus s epoch = some (epoch, false, false, s) := by
  simp [Query.getQueryStatus, Query.getPreviousEpoch, hepoch, hraw,
        Query.isQueryNameInDatabase, hname, Query.isNewQuery, hquery]

/-- getQueryStatus on a known name whose persisted epoch differs from the
current epoch: only new_epoch is raised and nothing is written. -/
theorem getQueryStatus_new_epoch (q : Query) (s : DBState) (epoch pe : Nat)
    (v : DBVal) (raw : String)
    (hname : dbGet s.db q.name_ = some v)
    (hepoch : dbGet s.db (q.name_ ++ "epoch") = some (.vstr raw))
    (hraw : stoull raw = some pe)
    (hne : pe ≠ epoch) :
    q.getQueryStatus s epoch = some (pe, true, false, s) := by
  simp [Query.getQueryStatus, Query.getPreviousEpoch, hepoch, hraw,
        Query.isQueryNameInDatabase, hname, hne]

/-- C3: a commit with calculateDiff=true, unchanged query text, the persisted
epoch equal to the current epoch, and an empty differential between the
persisted previous result set and the current rows performs no storage write
(the returned store is exactly the input store, so the result-set, epoch and
counter keys are untouched) and returns the item with an empty primary
diff. -/
theorem C3_no_op_commit (q : Query) (s : DBState) (item : QueryLogItem)
    (prev cur : List Row) (raw : String)
    (hname : dbGet s.db q.name_ = some (.vrows prev))
    (hquery : dbGet s.db ("query." ++ q.name_) = some (.vstr q.query_))
    (hepoch : dbGet s.db (q.name_ ++ "epoch") = some (.vstr raw))
    (hraw : stoull raw = some item.epoch)
    (hdiff : diff prev cur = {}) :
    q.addNewResults cur item true s =
      some ({ item with previous_epoch := item.epoch, results := {} }, s) := by
  unfold Query.addNewResults
  rw [getQueryStatus_same_epoch q s item.epoch (.vrows prev) raw hname hquery hepoch hraw]
  simp [Query.getPreviousQueryResults, hname, hdiff]

/-- Witness for C3_no_op_commit: one-row state, identical re-poll at the same
epoch. -/
theorem C3_witness :
    Query.addNewResults { query_ := "select 1", name_ := "q1" } [[("a", "1")]]
        { epoch := 5 }
        true
        { db := [("q1", .vrows [[("a", "1")]]),
                 ("query.q1", .vstr ("select 1")),
                 ("q1epoch", .vstr ("5"))] } =
      some ({ epoch := 5, previous_epoch := 5, results := {} },
            { db := [("q1", .vrows [[("a", "1")]]),
                     ("query.q1", .vstr ("select 1")),
                     ("q1epoch", .vstr ("5"))] }) :=
  C3_no_op_commit { query_ := "select 1", name_ := "q1" } _ _ [[("a", "1")]]
    [[("a", "1")]] "5" (by decide) (by decide) (by decide) (by decide) (by decide)

/-- C8: the four cases of getQueryStatus.  First encounter (no persisted
result row under the name) sets both flags and persists the query text;
otherwise an epoch mismatch sets only new_epoch; otherwise a query-text
mismatch sets only new_query and persists the new text; otherwise both flags
stay false. -/
theorem C8_query_status_cases (q : Query) (s : DBState) (epoch pe : Nat)
    (hpe : q.getPreviousEpoch s.db = some pe) :
    (dbGet s.db q.name_ = none →
      q.getQueryStatus s epoch = some (pe, true, true, saveQuery s q.name_ q.query_)) ∧
    ((dbGet s.db q.name_).isSome = true → pe ≠ epoch →
      q.getQueryStatus s epoch = some (pe, true, false, s)) ∧
    (∀ t, (dbGet s.db q.name_).isSome = true → pe = epoch →
      dbGet s.db ("query." ++ q.name_) = some (.vstr t) → t ≠ q.query_ →
      q.getQueryStatus s epoch = some (pe, false, true, saveQuery s q.name_ q.query_)) ∧
    ((dbGet s.db q.name_).isSome = true → pe = epoch →
      dbGet s.db ("query." ++ q.name_) = some (.vstr q.query_) →
      q.getQueryStatus s epoch = some (pe, false, false, s)) := by
  refine ⟨?_, ?_, ?_, ?_⟩
  · intro hnone
    simp [Query.getQueryStatus, hpe, Query.isQueryNameInDatabase, hnone]
  · intro hsome hne
    simp [Query.getQueryStatus, hpe, Query.isQueryNameInDatabase, hsome, hne]
  · intro t hsome hpeeq hquery ht
    subst hpeeq
    simp [Query.getQueryStatus, hpe, Query.isQueryNameInDatabase, hsome,
          Query.isNewQuery, hquery, ht]
  · intro hsome hpeeq hquery
    subst hpeeq
    simp [Query.getQueryStatus, hpe, Query.isQueryNameInDatabase, hsome,
          Query.isNewQuery, hquery]

/-- Witness for C8_query_status_cases: epoch-mismatch case on a one-name
store. -/
theorem C8_witness :
    Query.getQueryStatus { query_ := "select 1", name_ := "q1" }
        { db := [("q1", .vrows []), ("q1epoch", .vstr ("3"))] } 4 =
      some (3, true, false, { db := [("q1", .vrows []), ("q1epoch", .vstr ("3"))] }) :=
  (C8_query_status_cases { query_ := "select 1", name_ := "q1" } _ 4 3
    (by decide)).2.1 (by decide) (by decide)

/-- C9: after the first encounter (the name key is bound), a single
getQueryStatus call never raises new_epoch and new_query together, and when
the persisted epoch differs from the current epoch the call returns with
new_query false and the store unchanged, so a simultaneously changed query
text is neither flagged nor persisted. -/
theorem C9_epoch_priority (q : Query) (s : DBState) (epoch : Nat)
    (hname : (dbGet s.db q.name_).isSome = true) :
    (∀ pe ne nq s1, q.getQueryStatus s epoch = some (pe, ne, nq, s1) →
      ¬ (ne = true ∧ nq = true)) ∧
    (∀ pe, q.getPreviousEpoch s.db = some pe → pe ≠ epoch →
      q.getQueryStatus s epoch = some (pe, true, false, s)) := by
  constructor
  · intro pe ne nq s1 h
    unfold Query.getQueryStatus at h
    rcases hpe : q.getPreviousEpoch s.db with _ | pe0 <;> rw [hpe] at h
    · exact absurd h (by simp)
    · simp only [Query.isQueryNameInDatabase, hname] at h
      split at h <;> simp_all
      split at h <;> simp_all
      split at h <;> simp_all
  · intro pe hpe hne
    simp [Query.getQueryStatus, hpe, Query.isQueryNameInDatabase, hname, hne]

/-- Witness for C9_epoch_priority: concrete one-name store at a different
epoch. -/
theorem C9_witness :
    Query.getQueryStatus { query_ := "select 2", name_ := "q1" }
        { db := [("q1", .vrows []), ("q1epoch", .vstr ("3")),
                 ("query.q1", .vstr ("select 1"))] } 4 =
      some (3, true, false,
        { db := [("q1", .vrows []), ("q1epoch", .vstr ("3")),
                 ("query.q1", .vstr ("select 1"))] }) :=
  (C9_epoch_priority { query_ := "select 2", name_ := "q1" } _ 4 (by decide)).2 3
    (by decide) (by decide)

/-- The counter key read is unaffected by the result-set and epoch writes of a
commit. -/
theorem dbGet_counter_after_results_write (q : Query) (s : DBState) (cur : List Row)
    (e : Nat) :
    dbGet (setDatabaseValue (setDatabaseValue s q.name_ (.vrows cur))
        (q.name_ ++ "epoch") (.vstr (toString e))).db (q.name_ ++ "counter")
      = dbGet s.db (q.name_ ++ "counter") := by
  rw [dbGet_set_other _ _ _ _ (Ne.symm (epochKey_ne_counterKey q.name_)),
      dbGet_set_other _ _ _ _ (Ne.symm (name_ne_counterKey q.name_))]

/-- getQueryCounter in all-records mode is 0 without reading the store. -/
theorem getQueryCounter_all_records (q : Query) (db : DB) (n : Bool) :
    q.getQueryCounter db true n = some 0 := by
  simp [Query.getQueryCounter]

/-- addNewResults on the new-epoch, known-name, differencing path when the
differential of old against current is non-empty: previous_remaining is that
differential and gets the persisted+1 counter, the primary result is current
as added with counter 0, and the four writes happen in order (result set,
epoch, previous-remaining counter, primary counter). -/
theorem addNewResults_newEpoch_premNonempty (q : Query) (s : DBState)
    (item : QueryLogItem) (prev cur : List Row) (pe c : Nat)
    (hqs : q.getQueryStatus s item.epoch = some (pe, true, false, s))
    (hp : q.getPreviousQueryResults s.db = some prev)
    (hd : ((diff prev cur).added.isEmpty && (diff prev cur).removed.isEmpty) = false)
    (hcnt : q.getQueryCounter s.db false false = some c) :
    q.addNewResults cur item true s =
      some ({ item with previous_epoch := pe,
                        previous_remaining := diff prev cur,
                        results := { item.results with added := cur },
                        previous_remaining_counter := c,
                        counter := 0 },
        setDatabaseValue (setDatabaseValue (setDatabaseValue (setDatabaseValue s
              q.name_ (.vrows cur))
            (q.name_ ++ "epoch") (.vstr (toString item.epoch)))
          (q.name_ ++ "counter") (.vstr (toString c)))
        (q.name_ ++ "counter") (.vstr (toString 0))) := by
  have hcnt2 : q.getQueryCounter (setDatabaseValue (setDatabaseValue s q.name_
      (.vrows cur)) (q.name_ ++ "epoch") (.vstr (toString item.epoch))).db false false
      = some c :=
    (getQueryCounter_congr q false false
      (dbGet_counter_after_results_write q s cur item.epoch)).trans hcnt
  have hd2 : ¬ (diff prev cur).added = [] ∨ ¬ (diff prev cur).removed = [] := by
    have h := by simpa using hd
    by_cases ha : (diff prev cur).added = []
    · exact Or.inr (h ha)
    · exact Or.inl ha
  unfold Query.addNewResults
  rw [hqs]
  simp [Query.incrementCounter, hp, hcnt2, getQueryCounter_all_records, hd2]

/-- addNewResults on the new-epoch, known-name, differencing path when the
differential of old against current is empty: previous_remaining is the empty
differential and its counter is left alone, the primary result is current as
added with counter 0, and three writes happen (result set, epoch, primary
counter). -/
theorem addNewResults_newEpoch_premEmpty (q : Query) (s : DBState)
    (item : QueryLogItem) (prev cur : List Row) (pe : Nat)
    (hqs : q.getQueryStatus s item.epoch = some (pe, true, false, s))
    (hp : q.getPreviousQueryResults s.db = some prev)
    (hd : ((diff prev cur).added.isEmpty && (diff prev cur).removed.isEmpty) = true) :
    q.addNewResults cur item true s =
      some ({ item with previous_epoch := pe,
                        previous_remaining := diff prev cur,
                        results := { item.results with added := cur },
                        counter := 0 },
        setDatabaseValue (setDatabaseValue (setDatabaseValue s
              q.name_ (.vrows cur))
            (q.name_ ++ "epoch") (.vstr (toString item.epoch)))
          (q.name_ ++ "counter") (.vstr (toString 0))) := by
  have hd2 : (diff prev cur).added = [] ∧ (diff prev cur).removed = [] := by
    simpa using hd
  unfold Query.addNewResults
  rw [hqs]
  simp [Query.incrementCounter, hp, getQueryCounter_all_records, hd2.1, hd2.2]

/-- C4: a commit with calculateDiff=true that is not a new query and whose
epoch differs from the persisted epoch sets previousRemaining to the
differential of the old persisted set against current, makes the primary
result the full current rows as added, replaces the persisted result-set key
with the serialization of the current rows, and sets the persisted epoch key
to the new epoch.  (The persisted counter must be readable, else the commit
aborts with the stoull exception.) -/
theorem C4_new_epoch_commit (q : Query) (s : DBState) (item : QueryLogItem)
    (prev cur : List Row) (raw : String) (pe : Nat)
    (hname : dbGet s.db q.name_ = some (.vrows prev))
    (hepoch : dbGet s.db (q.name_ ++ "epoch") = some (.vstr raw))
    (hraw : stoull raw = some pe)
    (hne : pe ≠ item.epoch)
    (hcnt : ∃ c, q.getQueryCounter s.db false false = some c) :
    ∃ item' s', q.addNewResults cur item true s = some (item', s') ∧
      item'.previous_remaining = diff prev cur ∧
      item'.results.added = cur ∧
      dbGet s'.db q.name_ = some (.vrows cur) ∧
      dbGet s'.db (q.name_ ++ "epoch") = some (.vstr (toString item.epoch)) := by
  obtain ⟨c, hc⟩ := hcnt
  have hqs : q.getQueryStatus s item.epoch = some (pe, true, false, s) :=
    getQueryStatus_new_epoch q s item.epoch pe (.vrows prev) raw hname hepoch hraw hne
  have hp : q.getPreviousQueryResults s.db = some prev := by
    simp [Query.getPreviousQueryResults, hname]
  by_cases hcase :
      ((diff prev cur).added.isEmpty && (diff prev cur).removed.isEmpty) = true
  · rw [addNewResults_newEpoch_premEmpty q s item prev cur pe hqs hp hcase]
    refine ⟨_, _, rfl, rfl, rfl, ?_, ?_⟩
    · rw [dbGet_set_other _ _ _ _ (name_ne_counterKey q.name_),
          dbGet_set_other _ _ _ _ (name_ne_epochKey q.name_),
          dbGet_set_same]
    · rw [dbGet_set_other _ _ _ _ (epochKey_ne_counterKey q.name_),
          dbGet_set_same]
  · rw [addNewResults_newEpoch_premNonempty q s item prev cur pe c hqs hp
      (Bool.not_eq_true _ ▸ hcase) hc]
    refine ⟨_, _, rfl, rfl, rfl, ?_, ?_⟩
    · rw [dbGet_set_other _ _ _ _ (name_ne_counterKey q.name_),
          dbGet_set_other _ _ _ _ (name_ne_counterKey q.name_),
          dbGet_set_other _ _ _ _ (name_ne_epochKey q.name_),
          dbGet_set_same]
    · rw [dbGet_set_other _ _ _ _ (epochKey_ne_counterKey q.name_),
          dbGet_set_other _ _ _ _ (epochKey_ne_counterKey q.name_),
          dbGet_set_same]

/-- Witness for C4_new_epoch_commit: known name at epoch 1, commit at
epoch 2 with an empty current row set. -/
theorem C4_witness :
    ∃ item' s', Query.addNewResults { query_ := "select 1", name_ := "q1" } []
        { epoch := 2 } true
        { db := [("q1", .vrows [[("a", "1")]]), ("q1epoch", .vstr ("1"))] } =
      some (item', s') ∧
      item'.previous_remaining = diff [[("a", "1")]] [] ∧
      item'.results.added = [] ∧
      dbGet s'.db ("q1") = some (.vrows []) ∧
      dbGet s'.db ("q1" ++ "epoch") = some (.vstr (toString 2)) :=
  C4_new_epoch_commit { query_ := "select 1", name_ := "q1" }
    { db := [("q1", .vrows [[("a", "1")]]), ("q1epoch", .vstr ("1"))] }
    { epoch := 2 } [[("a", "1")]] [] "1" 1
    (by decide) (by decide) (by decide) (by decide) ⟨0, by decide⟩

/-- C10: a new-epoch commit producing a non-empty previousRemaining persists
both counters to the same name+"counter" key in sequence: first the
previous-remaining counter persisted+1, then the primary counter 0 (new_epoch
is passed as all_records), so the persisted counter after the commit is 0. -/
theorem C10_counter_overwrite (q : Query) (s : DBState) (item : QueryLogItem)
    (prev cur : List Row) (raw rawc : String) (pe m : Nat)
    (hname : dbGet s.db q.name_ = some (.vrows prev))
    (hepoch : dbGet s.db (q.name_ ++ "epoch") = some (.vstr raw))
    (hraw : stoull raw = some pe)
    (hne : pe ≠ item.epoch)
    (hd : ((diff prev cur).added.isEmpty && (diff prev cur).removed.isEmpty) = false)
    (hcnt : dbGet s.db (q.name_ ++ "counter") = some (.vstr rawc))
    (hm : stoull rawc = some m)
    (hlt : m + 1 < 2 ^ 64) :
    ∃ item' s', q.addNewResults cur item true s = some (item', s') ∧
      item'.previous_remaining_counter = m + 1 ∧
      item'.counter = 0 ∧
      s'.log = s.log ++ [(q.name_, .vrows cur),
                         (q.name_ ++ "epoch", .vstr (toString item.epoch)),
                         (q.name_ ++ "counter", .vstr (toString (m + 1))),
                         (q.name_ ++ "counter", .vstr (toString 0))] ∧
      dbGet s'.db (q.name_ ++ "counter") = some (.vstr (toString 0)) := by
  have hlt2 : m + 1 < 18446744073709551616 := by
    have h64 : (2 : Nat) ^ 64 = 18446744073709551616 := by norm_num
    rw [h64] at hlt
    exact hlt
  have hc : q.getQueryCounter s.db false false = some (m + 1) := by
    simp [Query.getQueryCounter, hcnt, hm, Nat.mod_eq_of_lt hlt2]
  have hqs : q.getQueryStatus s item.epoch = some (pe, true, false, s) :=
    getQueryStatus_new_epoch q s item.epoch pe (.vrows prev) raw hname hepoch hraw hne
  have hp : q.getPreviousQueryResults s.db = some prev := by
    simp [Query.getPreviousQueryResults, hname]
  rw [addNewResults_newEpoch_premNonempty q s item prev cur pe (m + 1) hqs hp hd hc]
  refine ⟨_, _, rfl, rfl, rfl, ?_, dbGet_set_same _ _ _⟩
  simp [setDatabaseValue]

/-- Witness for C10_counter_overwrite: known name at epoch 1 with persisted
counter 4; a row disappears while the commit moves to epoch 2. -/
theorem C10_witness :
    ∃ item' s', Query.addNewResults { query_ := "select 1", name_ := "q1" } []
        { epoch := 2 } true
        { db := [("q1", .vrows [[("a", "1")]]), ("q1epoch", .vstr ("1")),
                 ("q1counter", .vstr ("4"))],
          log := [] } =
      some (item', s') ∧
      item'.previous_remaining_counter = 4 + 1 ∧
      item'.counter = 0 ∧
      s'.log = [] ++ [("q1", .vrows []),
                      ("q1" ++ "epoch", .vstr (toString 2)),
                      ("q1" ++ "counter", .vstr (toString (4 + 1))),
                      ("q1" ++ "counter", .vstr (toString 0))] ∧
      dbGet s'.db ("q1" ++ "counter") = some (.vstr (toString 0)) :=
  C10_counter_overwrite { query_ := "select 1", name_ := "q1" }
    { db := [("q1", .vrows [[("a", "1")]]), ("q1epoch", .vstr ("1")),
             ("q1counter", .vstr ("4"))],
      log := [] }
    { epoch := 2 } [[("a", "1")]] [] "1" "4" 1 4
    (by decide) (by decide) (by decide) (by decide) (by decide) (by decide)
    (by decide) (by decide)

/-- Every event document produced by one event-form pass carries the epoch
and counter of that pass's track. -/
theorem eventPass_fields (ipr : Bool) (item : QueryLogItem) (fl : Flags)
    (evs : List EventDoc)
    (h : _serializeQueryLogItemAsEvents ipr item fl = some evs) :
    ∀ d ∈ evs, d.epoch = (if ipr then item.previous_epoch else item.epoch) ∧
      d.counter = (if ipr then item.previous_remaining_counter else item.counter) := by
  cases ipr
  · unfold _serializeQueryLogItemAsEvents at h
    simp only [Bool.false_eq_true, if_false] at h
    split at h
    · have h' := Option.some.inj h
      subst h'
      intro d hd
      rcases List.mem_append.mp hd with hm | hm <;>
        · obtain ⟨row, _, rfl⟩ := List.mem_map.mp hm
          exact ⟨rfl, rfl⟩
    · split at h
      · have h' := Option.some.inj h
        subst h'
        intro d hd
        obtain ⟨row, _, rfl⟩ := List.mem_map.mp hd
        exact ⟨rfl, rfl⟩
      · exact absurd h (by simp)
  · unfold _serializeQueryLogItemAsEvents at h
    simp only [if_true] at h
    split at h
    · have h' := Option.some.inj h
      subst h'
      intro d hd
      rcases List.mem_append.mp hd with hm | hm <;>
        · obtain ⟨row, _, rfl⟩ := List.mem_map.mp hm
          exact ⟨rfl, rfl⟩
    · split at h
      · have h' := Option.some.inj h
        subst h'
        intro d hd
        obtain ⟨row, _, rfl⟩ := List.mem_map.mp hd
        exact ⟨rfl, rfl⟩
      · exact absurd h (by simp)

/-- The previous-remaining event pass on a non-empty previousRemaining
explodes exactly that differential, removed rows first. -/
theorem eventPass_prem (item : QueryLogItem) (fl : Flags)
    (hprem : ¬ item.previous_remaining.added = [] ∨ ¬ item.previous_remaining.removed = []) :
    _serializeQueryLogItemAsEvents true item fl =
      some (item.previous_remaining.removed.map (serializeEvent true item fl ("removed")) ++
            item.previous_remaining.added.map (serializeEvent true item fl ("added"))) := by
  unfold _serializeQueryLogItemAsEvents
  rcases hprem with h | h <;> simp [h]


/-- C7: for an item with a non-empty previousRemaining, the legacy form emits
exactly the previous-epoch document (epoch and counter drawn from the
previous-remaining track, payload the previous-remaining differential)
followed by the current-epoch document, and the event form emits all
previous-track event documents strictly before all current-track ones, with
the previous-track block non-empty. -/
theorem C7_previous_before_current (item : QueryLogItem) (fl : Flags)
    (h : ¬ item.previous_remaining.added = [] ∨ ¬ item.previous_remaining.removed = []) :
    (∀ docs, serializeQueryLogItemJSON item fl = some docs →
      ∃ p c, docs = [p, c] ∧
        p.payload = .diffR item.previous_remaining ∧
        p.epoch = item.previous_epoch ∧
        p.previous_epoch = item.previous_epoch ∧
        p.counter = item.previous_remaining_counter ∧
        c.epoch = item.epoch ∧
        c.previous_epoch = item.previous_epoch ∧
        c.counter = item.counter) ∧
    (∀ evs, serializeQueryLogItemAsEvents item fl = some evs →
      ∃ evs1 evs2, evs = evs1 ++ evs2 ∧ evs1 ≠ [] ∧
        (∀ d ∈ evs1, d.epoch = item.previous_epoch ∧
          d.counter = item.previous_remaining_counter) ∧
        (∀ d ∈ evs2, d.epoch = item.epoch ∧ d.counter = item.counter)) := by
  constructor
  · intro docs hdocs
    unfold serializeQueryLogItemJSON at hdocs
    have h' := Option.some.inj hdocs
    subst h'
    have hpay : (serializeQueryLogItem true item fl).payload =
        .diffR item.previous_remaining := by
      rcases h with hh | hh <;>
        simp [serializeQueryLogItem, addLegacyFieldsAndDecorations, hh]
    refine ⟨_, _, rfl, hpay, ?_, ?_, ?_, ?_, ?_, ?_⟩ <;>
      simp [serializeQueryLogItem, addLegacyFieldsAndDecorations]
  · intro evs hevs
    unfold serializeQueryLogItemAsEvents at hevs
    rw [eventPass_prem item fl h] at hevs
    rcases h2 : _serializeQueryLogItemAsEvents false item fl with _ | evs2 <;>
      rw [h2] at hevs
    · exact absurd hevs (by simp)
    · have h' := Option.some.inj hevs
      refine ⟨_, evs2, h'.symm, ?_, ?_, ?_⟩
      · intro hnil
        rcases List.append_eq_nil.mp hnil with ⟨ha, hb⟩
        rcases h with hh | hh <;> simp_all
      · have hf := eventPass_fields true item fl _ (eventPass_prem item fl h)
        simpa using hf
      · have hf := eventPass_fields false item fl evs2 h2
        simpa using hf

/-- Witness for C7_previous_before_current: an item with one added row left
over from the previous epoch. -/
theorem C7_witness :
    (∀ docs, serializeQueryLogItemJSON
        { previous_remaining := { added := [[("a", "1")]] }, epoch := 2,
          previous_epoch := 1, counter := 0, previous_remaining_counter := 7 } {} =
        some docs →
      ∃ p c, docs = [p, c] ∧
        p.payload = .diffR { added := [[("a", "1")]] } ∧
        p.epoch = 1 ∧ p.previous_epoch = 1 ∧ p.counter = 7 ∧
        c.epoch = 2 ∧ c.previous_epoch = 1 ∧ c.counter = 0) ∧
    (∀ evs, serializeQueryLogItemAsEvents
        { previous_remaining := { added := [[("a", "1")]] }, epoch := 2,
          previous_epoch := 1, counter := 0, previous_remaining_counter := 7 } {} =
        some evs →
      ∃ evs1 evs2, evs = evs1 ++ evs2 ∧ evs1 ≠ [] ∧
        (∀ d ∈ evs1, d.epoch = 1 ∧ d.counter = 7) ∧
        (∀ d ∈ evs2, d.epoch = 2 ∧ d.counter = 0)) :=
  C7_previous_before_current
    { previous_remaining := { added := [[("a", "1")]] }, epoch := 2,
      previous_epoch := 1, counter := 0, previous_remaining_counter := 7 } {}
    (Or.inl (by decide))

/-- getQueryCounter for a new query that is not returning all records is 1
without reading the store. -/
theorem getQueryCounter_new_query (q : Query) (db : DB) :
    q.getQueryCounter db false true = some 1 := by
  simp [Query.getQueryCounter]

/-- Inversion for getQueryStatus: a successful call is one of the four cases,
and the store is written (with the query text) exactly in the two new-query
cases. -/
theorem getQueryStatus_inv (q : Query) (s : DBState) (epoch pe : Nat) (ne nq : Bool)
    (s1 : DBState) (h : q.getQueryStatus s epoch = some (pe, ne, nq, s1)) :
    (ne = true ∧ nq = true ∧ s1 = saveQuery s q.name_ q.query_) ∨
    (ne = true ∧ nq = false ∧ s1 = s) ∨
    (ne = false ∧ nq = true ∧ s1 = saveQuery s q.name_ q.query_) ∨
    (ne = false ∧ nq = false ∧ s1 = s) := by
  unfold Query.getQueryStatus at h
  rcases hpe : q.getPreviousEpoch s.db with _ | pe0 <;> rw [hpe] at h
  · exact absurd h (by simp)
  · dsimp only at h
    split_ifs at h <;>
      · have h' := Option.some.inj h
        simp_all

/-- addNewResults when getQueryStatus reports a new query (first encounter or
changed text): no differencing, the current rows become the added set, and the
counter is 0 under a new epoch and 1 otherwise. -/
theorem addNewResults_newQuery (q : Query) (s : DBState) (item : QueryLogItem)
    (cur : List Row) (pe : Nat) (ne : Bool) (s1 : DBState) (cd : Bool)
    (hqs : q.getQueryStatus s item.epoch = some (pe, ne, true, s1))
    (hprem : item.previous_remaining = {}) :
    q.addNewResults cur item cd s =
      some ({ item with previous_epoch := pe,
                        results := { item.results with added := cur },
                        counter := if ne then 0 else 1 },
        setDatabaseValue (setDatabaseValue (setDatabaseValue s1
              q.name_ (.vrows cur))
            (q.name_ ++ "epoch") (.vstr (toString item.epoch)))
          (q.name_ ++ "counter") (.vstr (toString (if ne then 0 else 1)))) := by
  unfold Query.addNewResults
  rw [hqs]
  cases ne <;>
    simp [Query.incrementCounter, getQueryCounter_all_records,
      getQueryCounter_new_query, hprem]

/-- addNewResults on the same-epoch differencing path with an empty
differential: nothing is written and the counter is left alone. -/
theorem addNewResults_sameEpoch_noop (q : Query) (s : DBState) (item : QueryLogItem)
    (prev cur : List Row) (pe : Nat)
    (hqs : q.getQueryStatus s item.epoch = some (pe, false, false, s))
    (hp : q.getPreviousQueryResults s.db = some prev)
    (hd : ((diff prev cur).added.isEmpty && (diff prev cur).removed.isEmpty) = true) :
    q.addNewResults cur item true s =
      some ({ item with previous_epoch := pe, results := diff prev cur }, s) := by
  have hd2 : (diff prev cur).added = [] ∧ (diff prev cur).removed = [] := by
    simpa using hd
  unfold Query.addNewResults
  rw [hqs]
  simp [hp, hd2.1, hd2.2]

/-- addNewResults on the same-epoch differencing path with a non-empty
differential: the differential is the primary result and result set, epoch and
counter are written. -/
theorem addNewResults_sameEpoch_write (q : Query) (s : DBState) (item : QueryLogItem)
    (prev cur : List Row) (pe c : Nat)
    (hqs : q.getQueryStatus s item.epoch = some (pe, false, false, s))
    (hp : q.getPreviousQueryResults s.db = some prev)
    (hd : ((diff prev cur).added.isEmpty && (diff prev cur).removed.isEmpty) = false)
    (hcnt : q.getQueryCounter s.db false false = some c) :
    q.addNewResults cur item true s =
      some ({ item with previous_epoch := pe, results := diff prev cur, counter := c },
        setDatabaseValue (setDatabaseValue (setDatabaseValue s
              q.name_ (.vrows cur))
            (q.name_ ++ "epoch") (.vstr (toString item.epoch)))
          (q.name_ ++ "counter") (.vstr (toString c))) := by
  have hcnt2 : q.getQueryCounter (setDatabaseValue (setDatabaseValue s q.name_
      (.vrows cur)) (q.name_ ++ "epoch") (.vstr (toString item.epoch))).db false false
      = some c :=
    (getQueryCounter_congr q false false
      (dbGet_counter_after_results_write q s cur item.epoch)).trans hcnt
  have hd2 : ¬ (diff prev cur).added = [] ∨ ¬ (diff prev cur).removed = [] := by
    have h := by simpa using hd
    by_cases ha : (diff prev cur).added = []
    · exact Or.inr (h ha)
    · exact Or.inl ha
  unfold Query.addNewResults
  rw [hqs]
  simp [Query.incrementCounter, hp, hcnt2, hd2]

/-- addNewResults aborts when the persisted previous result set cannot be
read on the differencing path. -/
theorem addNewResults_diff_read_fail (q : Query) (s : DBState) (item : QueryLogItem)
    (cur : List Row) (pe : Nat) (ne : Bool)
    (hqs : q.getQueryStatus s item.epoch = some (pe, ne, false, s))
    (hp : q.getPreviousQueryResults s.db = none) :
    q.addNewResults cur item true s = none := by
  unfold Query.addNewResults
  rw [hqs]
  simp [hp]


/-- C5 (amended): for a commit through addNewResults with calculateDiff=true
and a fresh item, on a store whose persisted counter parses without overflow,
every legacy document carrying counter 0 is either a snapshot-form document or
a differential holding the full current row set as added with no removed rows
(a snapshot-as-added), so a consumer ignoring counter-0 documents misses no
removed-row or genuine differential event. -/
theorem C5_amended (q : Query) (s : DBState) (cur : List Row) (e : Nat) (fl : Flags)
    (rawc : String) (m : Nat)
    (hcnt : dbGet s.db (q.name_ ++ "counter") = some (.vstr rawc))
    (hm : stoull rawc = some m)
    (hlt : m + 1 < 2 ^ 64) :
    ∀ item' s', q.addNewResults cur { epoch := e } true s = some (item', s') →
    ∀ docs, serializeQueryLogItemJSON item' fl = some docs →
    ∀ d ∈ docs, d.counter = 0 →
      (∃ rows, d.payload = .snapshot rows) ∨
      d.payload = .diffR { added := cur, removed := [] } := by
  have hlt2 : m + 1 < 18446744073709551616 := by
    have h64 : (2 : Nat) ^ 64 = 18446744073709551616 := by norm_num
    rw [h64] at hlt
    exact hlt
  have hcc : q.getQueryCounter s.db false false = some (m + 1) := by
    simp [Query.getQueryCounter, hcnt, hm, Nat.mod_eq_of_lt hlt2]
  intro item' s' h docs hdocs d hd hc0
  -- the two key facts about the committed item
  have hkey : (item'.previous_remaining_counter = 0 → item'.previous_remaining = {}) ∧
      (item'.counter = 0 → item'.results = { added := cur, removed := ([] : List Row) } ∨
        item'.results = ({} : DiffResults)) := by
    rcases hqs : q.getQueryStatus s ({ epoch := e } : QueryLogItem).epoch
      with _ | ⟨pe, ne, nq, s1⟩
    · rw [show q.addNewResults cur { epoch := e } true s = none from by
        unfold Query.addNewResults; rw [hqs]] at h
      exact absurd h (by simp)
    rcases getQueryStatus_inv q s _ pe ne nq s1 hqs
      with ⟨rfl, rfl, _⟩ | ⟨rfl, rfl, hs1⟩ | ⟨rfl, rfl, _⟩ | ⟨rfl, rfl, hs1⟩
    · -- first encounter: new epoch and new query
      rw [addNewResults_newQuery q s ({ epoch := e } : QueryLogItem) cur pe true s1
        true hqs rfl] at h
      injection h with h'
      injection h' with h1 h2
      subst h1
      constructor
      · intro _
        rfl
      · intro _
        left
        rfl
    · -- new epoch only
      rw [hs1] at hqs
      rcases hp : q.getPreviousQueryResults s.db with _ | prev
      · rw [addNewResults_diff_read_fail q s ({ epoch := e } : QueryLogItem) cur pe
          true hqs hp] at h
        exact absurd h (by simp)
      by_cases hb : ((diff prev cur).added.isEmpty &&
          (diff prev cur).removed.isEmpty) = true
      · rw [addNewResults_newEpoch_premEmpty q s ({ epoch := e } : QueryLogItem) prev
          cur pe hqs hp hb] at h
        injection h with h'
        injection h' with h1 h2
        subst h1
        have hd2 : (diff prev cur).added = [] ∧ (diff prev cur).removed = [] := by
          simpa using hb
        constructor
        · intro _
          show diff prev cur = {}
          rcases hdc : diff prev cur with ⟨a, r⟩
          rw [hdc] at hd2
          simp_all
        · intro _
          left
          rfl
      · rw [addNewResults_newEpoch_premNonempty q s ({ epoch := e } : QueryLogItem)
          prev cur pe (m + 1) hqs hp (Bool.not_eq_true _ ▸ hb) hcc] at h
        injection h with h'
        injection h' with h1 h2
        subst h1
        constructor
        · intro hz
          exact absurd hz (by simp)
        · intro _
          left
          rfl
    · -- new query only (same epoch)
      rw [addNewResults_newQuery q s ({ epoch := e } : QueryLogItem) cur pe false s1
        true hqs rfl] at h
      injection h with h'
      injection h' with h1 h2
      subst h1
      constructor
      · intro _
        rfl
      · intro hz
        exact absurd hz (by simp)
    · -- unchanged query, same epoch
      rw [hs1] at hqs
      rcases hp : q.getPreviousQueryResults s.db with _ | prev
      · rw [addNewResults_diff_read_fail q s ({ epoch := e } : QueryLogItem) cur pe
          false hqs hp] at h
        exact absurd h (by simp)
      by_cases hb : ((diff prev cur).added.isEmpty &&
          (diff prev cur).removed.isEmpty) = true
      · rw [addNewResults_sameEpoch_noop q s ({ epoch := e } : QueryLogItem) prev cur
          pe hqs hp hb] at h
        injection h with h'
        injection h' with h1 h2
        subst h1
        have hd2 : (diff prev cur).added = [] ∧ (diff prev cur).removed = [] := by
          simpa using hb
        constructor
        · intro _
          rfl
        · intro _
          right
          show diff prev cur = {}
          rcases hdc : diff prev cur with ⟨a, r⟩
          rw [hdc] at hd2
          simp_all
      · rw [addNewResults_sameEpoch_write q s ({ epoch := e } : QueryLogItem) prev cur
          pe (m + 1) hqs hp (Bool.not_eq_true _ ▸ hb) hcc] at h
        injection h with h'
        injection h' with h1 h2
        subst h1
        constructor
        · intro _
          rfl
        · intro hz
          exact absurd hz (by simp)
  -- the documents of the legacy serialization
  unfold serializeQueryLogItemJSON at hdocs
  have h' := Option.some.inj hdocs
  subst h'
  simp only [List.mem_cons, List.not_mem_nil, or_false] at hd
  rcases hd with rfl | rfl
  · -- previous-remaining document
    have hz : item'.previous_remaining_counter = 0 := by
      simpa [serializeQueryLogItem, addLegacyFieldsAndDecorations] using hc0
    have hprem := hkey.1 hz
    left
    refine ⟨item'.snapshot_results, ?_⟩
    simp [serializeQueryLogItem, addLegacyFieldsAndDecorations, hprem]
  · -- current document
    have hz : item'.counter = 0 := by
      simpa [serializeQueryLogItem, addLegacyFieldsAndDecorations] using hc0
    rcases hkey.2 hz with hres | hres
    · by_cases hcur : cur = []
      · left
        refine ⟨item'.snapshot_results, ?_⟩
        simp [serializeQueryLogItem, addLegacyFieldsAndDecorations, hres, hcur]
      · right
        have hlenc : 0 < cur.length := List.length_pos.mpr hcur
        simp [serializeQueryLogItem, addLegacyFieldsAndDecorations, hres, hlenc]
    · left
      refine ⟨item'.snapshot_results, ?_⟩
      simp [serializeQueryLogItem, addLegacyFieldsAndDecorations, hres]


/-- Witness for C5_amended: the epoch-rollover commit of the concrete
scenario; its current-pass document has counter 0 and is the full row set as
added. -/
theorem C5_amended_witness :
    (∃ rows, docB.payload = LegacyPayload.snapshot rows) ∨
    docB.payload = LegacyPayload.diffR { added := [rowA1], removed := [] } :=
  C5_amended qA stateB1 [rowA1] 2 {} "0" 0 (by decide) (by decide) (by decide)
    itemB stateB2 (by decide)
    [serializeQueryLogItem true itemB {}, docB] rfl
    docB (by decide) (by decide)

end Osq
